import Mathlib

/-!
Verification of the WatchMe Vault API path-keyed artifact store (app.py).

The program is a FastAPI service that stores audio recordings and JSON
analysis artifacts in a directory tree `BASE_DIR/device_id/date/category/…`.
This file gives a shallow embedding of its path validation, path
construction, file-store operations and listing/sorting logic, translated
from app.py, and proves or refutes the specification's claims about them.

Modelling conventions:
  * strings are `List Char`; file contents are `Bytes` (`List Nat`);
  * the filesystem is a record of created directories and written files,
    keyed by the literal path strings the code builds (no OS-level path
    normalisation is applied, just as the code applies none);
  * `json.load` is an external library call, modelled as a parameter
    `parseJson : Bytes → Except PErr J` classifying its outcome as success,
    `json.JSONDecodeError`, or any other exception;
  * the regex character class `\d` is modelled as the ASCII digits 0-9
    (Python's `re` additionally accepts non-ASCII Unicode decimal digits;
    no claim below depends on that corner);
  * Python's `$` in the upload-path regex matches at the end of the string
    or just before one final newline; the model reproduces this;
  * `os.listdir` returns directory entries in unspecified order, so the
    listing endpoints take the entry list as a parameter;
  * Python's `sorted`/`list.sort` are stable; they are modelled by
    `List.insertionSort`, which is stable for the total preorders used.
-/

namespace Vault

/-- Byte sequences: the contents of uploaded and stored files. -/
abbrev Bytes := List Nat

/-- Outcomes of Python's `json.load`: success is carried separately; a failure
is either a `json.JSONDecodeError` or any other exception. -/
inductive PErr where
  | decode
  | other
deriving DecidableEq

/-- Responses of the endpoint layer, over a type `J` of parsed JSON documents:
upload success JSON, fetched-JSON body, `FileResponse` (path, media type,
download filename, served bytes), the view-file HTML page (abstracted to the
path shown and the document dumped), and `HTTPException(code, detail)`. -/
inductive Resp (J : Type) where
  | uploadOk (path : List Char)
  | jsonOk (doc : J)
  | fileResp (path : List Char) (mediaType : String) (filename : List Char) (content : Bytes)
  | htmlView (path : List Char) (doc : J)
  | err (code : Nat) (detail : List Char)
deriving DecidableEq

/-- Filesystem model: the directories created by `os.makedirs` so far and the
files written so far (later writes shadow earlier ones, as `List.lookup`
returns the first match). -/
structure FS where
  dirs : List (List Char)
  files : List (List Char × Bytes)
deriving DecidableEq

def emptyFS : FS := ⟨[], []⟩

/-- Reading an existing file: `os.path.exists` + `open(path).read()`. -/
def fsGet (fs : FS) (p : List Char) : Option Bytes := fs.files.lookup p

/-- `os.makedirs(dir, exist_ok=True)` followed by writing `content` at `p`
(existing files are overwritten unconditionally). -/
def fsWrite (fs : FS) (dir p : List Char) (content : Bytes) : FS :=
  ⟨dir :: fs.dirs, (p, content) :: fs.files⟩

/-! Character classes and string utilities used by app.py. -/

/-- The regex class `\d`, restricted to ASCII (see the module comment). -/
def isDigitC (c : Char) : Bool := ('0' ≤ c) && (c ≤ '9')

/-- The regex class `[a-zA-Z0-9_-]` of the device-id segment. -/
def isDevChar (c : Char) : Bool :=
  (('a' ≤ c) && (c ≤ 'z')) || (('A' ≤ c) && (c ≤ 'Z')) || isDigitC c || (c == '_') || (c == '-')

/-- Python `s.split('/')`: splits at every `'/'`, keeping empty segments;
the empty string yields one empty segment. -/
def splitOnSlash : List Char → List (List Char)
  | [] => [[]]
  | c :: rest =>
    if c = '/' then [] :: splitOnSlash rest
    else
      match splitOnSlash rest with
      | [] => [[c]]
      | p :: ps => (c :: p) :: ps

/-- Inverse of `splitOnSlash`: interleaves `'/'` between the segments. -/
def joinSlash : List (List Char) → List Char
  | [] => []
  | [p] => p
  | p :: ps => p ++ '/' :: joinSlash ps

/-- `os.path.basename`: everything after the last `'/'`. -/
def basename (p : List Char) : List Char := ((splitOnSlash p).getLast?).getD []

/-- `os.path.dirname`: everything before the last `'/'` (of the slash-free
paths built here; the all-slash corner of posixpath is not reached). -/
def dirname (p : List Char) : List Char := joinSlash (splitOnSlash p).dropLast

/-- Python `part.startswith(ch)` for a single character. -/
def startsWithC (ch : Char) : List Char → Bool
  | [] => false
  | c :: _ => c == ch

/-- Python `'..' in part`: two consecutive dots occur somewhere. -/
def containsDD : List Char → Bool
  | [] => false
  | [_] => false
  | a :: b :: rest => ((a == '.') && (b == '.')) || containsDD (b :: rest)

/-- One offending path segment of the traversal defence in `upload_file`:
it contains `..`, or starts with `'/'` or `'\'`. -/
def badPart (p : List Char) : Bool :=
  containsDD p || startsWithC '/' p || startsWithC '\\' p

/-- The traversal check of `upload_file` (lines 91-92 of app.py): split the
path on `'/'` and flag any offending segment. -/
def hasTraversalComponent (s : List Char) : Bool :=
  (splitOnSlash s).any badPart

/-- Python `s.endswith(suffix)`. -/
def endsWithL (l suffixChars : List Char) : Bool := List.isSuffixOf suffixChars l

def jsonExt : List Char := ".json".data

def wavExt : List Char := ".wav".data

def rawSeg : List Char := "raw".data

def sedSeg : List Char := "sed".data

def opensmileSeg : List Char := "opensmile".data

/-! The audio-upload path regex
`^[a-zA-Z0-9_-]+/\d{4}-\d{2}-\d{2}/raw/\d{2}-\d{2}\.wav$`.
Since `'/'` occurs in no character class, a full match is equivalent to
splitting on `'/'` into exactly four segments of the required shapes. -/

/-- The device segment `[a-zA-Z0-9_-]+`. -/
def isValidDevicePart (l : List Char) : Bool := !l.isEmpty && l.all isDevChar

/-- The date segment `\d{4}-\d{2}-\d{2}`. -/
def isValidDatePart : List Char → Bool
  | [y1, y2, y3, y4, '-', m1, m2, '-', d1, d2] =>
    isDigitC y1 && isDigitC y2 && isDigitC y3 && isDigitC y4 &&
      isDigitC m1 && isDigitC m2 && isDigitC d1 && isDigitC d2
  | _ => false

/-- The file segment `\d{2}-\d{2}\.wav`. -/
def isValidFilePart : List Char → Bool
  | [a, b, '-', c, d, '.', 'w', 'a', 'v'] =>
    isDigitC a && isDigitC b && isDigitC c && isDigitC d
  | _ => false

/-- The regex body matched against the whole string (the `$` treated as pure
end-of-string; see `matchesAudioPath` for the newline behaviour). -/
def matchesCore (s : List Char) : Bool :=
  match splitOnSlash s with
  | [dv, dt, rw, fl] =>
    isValidDevicePart dv && isValidDatePart dt && (rw == rawSeg) && isValidFilePart fl
  | _ => false

/-- `re.match(path_pattern, s)` as a full-match test: Python's `$` matches at
the very end or just before a single final newline. -/
def matchesAudioPath (s : List Char) : Bool :=
  matchesCore s || ((s.getLast? == some '\n') && matchesCore s.dropLast)

/-! Path construction. -/

/-- The production base directory of app.py (the environment-variable branch
selecting a local directory is configuration, fixed here to the default). -/
def BASE_DIR : List Char := "/home/ubuntu/data/data_accounts".data

/-- `posixpath.join(a, b)`: an absolute `b` discards `a`; otherwise the parts
are joined with a separator unless `a` is empty or already ends in one. -/
def pjoin (a b : List Char) : List Char :=
  if b.head? = some '/' then b
  else if a = [] ∨ a.getLast? = some '/' then a ++ b
  else a ++ '/' :: b

/-- Media type chosen by `download_file_by_path` from the filename. -/
def mediaFor (fn : List Char) : String :=
  if endsWithL fn wavExt then "audio/wav"
  else if endsWithL fn jsonExt then "application/json"
  else "application/octet-stream"

/-! The endpoints (translated from app.py, in source order). -/

/-- POST `/upload` (app.py lines 68-123): the `X-File-Path` header, when
present and non-empty, is checked against the path regex, then against the
per-segment traversal defence, and only then is the file written under
`BASE_DIR` (creating directories, overwriting unconditionally). A missing or
empty header is a 400. -/
def upload_file {J : Type} (fs : FS) (xFilePath : Option (List Char)) (content : Bytes) :
    Resp J × FS :=
  match xFilePath with
  | some fp =>
    if fp.isEmpty then
      (Resp.err 400 "X-File-Path header is required for audio file uploads".data, fs)
    else if !matchesAudioPath fp then
      (Resp.err 400 "Invalid file path format. Expected: device_id/YYYY-MM-DD/raw/HH-MM.wav".data, fs)
    else if hasTraversalComponent fp then
      (Resp.err 400 "Invalid path components detected".data, fs)
    else
      let savePath := pjoin BASE_DIR fp
      (Resp.uploadOk savePath, fsWrite fs (dirname savePath) savePath content)
  | none =>
    (Resp.err 400 "X-File-Path header is required for audio file uploads".data, fs)

/-- GET `/download` (lines 149-161): serves
`BASE_DIR/device_id/date/raw/slot.wav` or 404. -/
def download_file {J : Type} (fs : FS) (device_id date slot : List Char) : Resp J :=
  let p := BASE_DIR ++ '/' :: (device_id ++ '/' :: (date ++ '/' :: (rawSeg ++ '/' :: (slot ++ wavExt))))
  match fsGet fs p with
  | none => Resp.err 404 "File not found".data
  | some b => Resp.fileResp p "audio/wav" (slot ++ wavExt) b

/-- GET `/download-sed` (lines 166-181). -/
def download_sed_file {J : Type} (fs : FS) (device_id date slot : List Char) : Resp J :=
  let p := BASE_DIR ++ '/' :: (device_id ++ '/' :: (date ++ '/' :: (sedSeg ++ '/' :: (slot ++ jsonExt))))
  match fsGet fs p with
  | none =>
    Resp.err 404 ("SED file not found: ".data ++ device_id ++ '/' :: date ++ "/sed/".data ++ slot ++ jsonExt)
  | some b => Resp.fileResp p "application/json" (slot ++ jsonExt) b

/-- GET `/download-opensmile` (lines 186-201). -/
def download_opensmile_file {J : Type} (fs : FS) (device_id date slot : List Char) : Resp J :=
  let p := BASE_DIR ++ '/' :: (device_id ++ '/' :: (date ++ '/' :: (opensmileSeg ++ '/' :: (slot ++ jsonExt))))
  match fsGet fs p with
  | none =>
    Resp.err 404 ("OpenSMILE file not found: ".data ++ device_id ++ '/' :: date ++ "/opensmile/".data ++ slot ++ jsonExt)
  | some b => Resp.fileResp p "application/json" (slot ++ jsonExt) b

/-- POST `/upload-prompt` (lines 206-224): `.json` filenames only. -/
def upload_prompt {J : Type} (fs : FS) (filename : List Char) (content : Bytes)
    (device_id date : List Char) : Resp J × FS :=
  if !endsWithL filename jsonExt then (Resp.err 400 "Only .json allowed".data, fs)
  else
    let saveDir := pjoin (pjoin (pjoin BASE_DIR device_id) date) "prompt".data
    let savePath := pjoin saveDir "emotion-timeline_gpt_prompt.json".data
    (Resp.uploadOk savePath, fsWrite fs saveDir savePath content)

/-- GET `/download-file` (lines 230-247): no validation of `file_path`; the
raw query string is joined to the base directory and served if it exists. -/
def download_file_by_path {J : Type} (fs : FS) (file_path : List Char) : Resp J :=
  let full := pjoin BASE_DIR file_path
  match fsGet fs full with
  | none => Resp.err 404 "File not found".data
  | some b => Resp.fileResp full (mediaFor (basename full)) (basename full) b

/-- GET `/view-file` (lines 249-295): no validation of `file_path`; after the
existence check, non-`.json` names get a 400, then the file is parsed as
JSON (parse failure 400, other read failure 500) and rendered as HTML. -/
def view_file_content {J : Type} (parseJson : Bytes → Except PErr J) (fs : FS)
    (file_path : List Char) : Resp J :=
  let full := pjoin BASE_DIR file_path
  match fsGet fs full with
  | none => Resp.err 404 "File not found".data
  | some b =>
    if !endsWithL file_path jsonExt then
      Resp.err 400 "Only JSON files can be viewed".data
    else
      match parseJson b with
      | Except.ok doc => Resp.htmlView full doc
      | Except.error PErr.decode => Resp.err 400 "Invalid JSON file".data
      | Except.error PErr.other => Resp.err 500 "Error reading file".data

/-- POST `/upload/analysis/emotion-timeline` (lines 457-475). -/
def upload_emotion_timeline {J : Type} (fs : FS) (filename : List Char) (content : Bytes)
    (device_id date : List Char) : Resp J × FS :=
  if !endsWithL filename jsonExt then (Resp.err 400 "Only .json allowed".data, fs)
  else
    let saveDir := pjoin (pjoin (pjoin BASE_DIR device_id) date) "emotion-timeline".data
    let savePath := pjoin saveDir "emotion-timeline.json".data
    (Resp.uploadOk savePath, fsWrite fs saveDir savePath content)

/-- POST `/upload/analysis/sed-timeline` (lines 481-501). -/
def upload_sed_timeline {J : Type} (fs : FS) (filename : List Char) (content : Bytes)
    (device_id date time_block : List Char) : Resp J × FS :=
  if !endsWithL filename jsonExt then (Resp.err 400 "Only .json files allowed".data, fs)
  else
    let saveDir := pjoin (pjoin (pjoin BASE_DIR device_id) date) sedSeg
    let savePath := pjoin saveDir (time_block ++ jsonExt)
    (Resp.uploadOk savePath, fsWrite fs saveDir savePath content)

/-- POST `/upload/analysis/sed-summary` (lines 507-526). -/
def upload_sed_summary {J : Type} (fs : FS) (filename : List Char) (content : Bytes)
    (device_id date : List Char) : Resp J × FS :=
  if !endsWithL filename jsonExt then (Resp.err 400 "Only .json files allowed".data, fs)
  else
    let saveDir := pjoin (pjoin (pjoin BASE_DIR device_id) date) "sed-summary".data
    let savePath := pjoin saveDir "result.json".data
    (Resp.uploadOk savePath, fsWrite fs saveDir savePath content)

/-- POST `/upload/analysis/opensmile-summary` (lines 532-551). -/
def upload_opensmile_summary {J : Type} (fs : FS) (filename : List Char) (content : Bytes)
    (device_id date : List Char) : Resp J × FS :=
  if !endsWithL filename jsonExt then (Resp.err 400 "Only .json files allowed".data, fs)
  else
    let saveDir := pjoin (pjoin (pjoin BASE_DIR device_id) date) "opensmile-summary".data
    let savePath := pjoin saveDir "result.json".data
    (Resp.uploadOk savePath, fsWrite fs saveDir savePath content)

/-- POST `/upload/analysis/opensmile-features` (lines 656-680). -/
def upload_opensmile_features {J : Type} (fs : FS) (filename : List Char) (content : Bytes)
    (device_id date time_slot : List Char) : Resp J × FS :=
  if !endsWithL filename jsonExt then (Resp.err 400 "Only .json files allowed".data, fs)
  else
    let saveDir := pjoin (pjoin (pjoin BASE_DIR device_id) date) opensmileSeg
    let savePath := pjoin saveDir (time_slot ++ jsonExt)
    (Resp.uploadOk savePath, fsWrite fs saveDir savePath content)

/-! The (device_id, date)-keyed analysis-fetch endpoints. Each returns the
resolved path together with the response. -/

/-- GET `/api/devices/{device_id}/logs/{date}/emotion-timeline` (lines 557-577). -/
def get_emotion_timeline {J : Type} (parseJson : Bytes → Except PErr J) (fs : FS)
    (device_id date : List Char) : List Char × Resp J :=
  let p := pjoin (pjoin (pjoin (pjoin BASE_DIR device_id) date) "emotion-timeline".data)
    "emotion-timeline.json".data
  (p, match fsGet fs p with
      | none => Resp.err 404 "Emotion timeline file not found".data
      | some b =>
        match parseJson b with
        | Except.ok doc => Resp.jsonOk doc
        | Except.error PErr.decode =>
          Resp.err 400 "Invalid JSON format in emotion-timeline.json".data
        | Except.error PErr.other => Resp.err 500 "Unexpected error".data)

/-- GET `/api/users/{user_id}/logs/{date}/emotion-timeline` (lines 580-601),
kept for backward compatibility. -/
def get_emotion_timeline_legacy {J : Type} (parseJson : Bytes → Except PErr J) (fs : FS)
    (user_id date : List Char) : List Char × Resp J :=
  let p := pjoin (pjoin (pjoin (pjoin BASE_DIR user_id) date) "emotion-timeline".data)
    "emotion-timeline.json".data
  (p, match fsGet fs p with
      | none => Resp.err 404 "Emotion timeline file not found".data
      | some b =>
        match parseJson b with
        | Except.ok doc => Resp.jsonOk doc
        | Except.error PErr.decode =>
          Resp.err 400 "Invalid JSON format in emotion-timeline.json".data
        | Except.error PErr.other => Resp.err 500 "Unexpected error".data)

/-- GET `/api/devices/{device_id}/logs/{date}/sed-summary` (lines 607-627). -/
def get_sed_summary {J : Type} (parseJson : Bytes → Except PErr J) (fs : FS)
    (device_id date : List Char) : List Char × Resp J :=
  let p := pjoin (pjoin (pjoin (pjoin BASE_DIR device_id) date) "sed-summary".data)
    "result.json".data
  (p, match fsGet fs p with
      | none => Resp.err 404 "SED summary file not found".data
      | some b =>
        match parseJson b with
        | Except.ok doc => Resp.jsonOk doc
        | Except.error PErr.decode => Resp.err 400 "Invalid JSON format in result.json".data
        | Except.error PErr.other => Resp.err 500 "Unexpected error".data)

/-- GET `/api/users/{user_id}/logs/{date}/sed-summary` (lines 630-650). -/
def get_sed_summary_legacy {J : Type} (parseJson : Bytes → Except PErr J) (fs : FS)
    (user_id date : List Char) : List Char × Resp J :=
  let p := pjoin (pjoin (pjoin (pjoin BASE_DIR user_id) date) "sed-summary".data)
    "result.json".data
  (p, match fsGet fs p with
      | none => Resp.err 404 "SED summary file not found".data
      | some b =>
        match parseJson b with
        | Except.ok doc => Resp.jsonOk doc
        | Except.error PErr.decode => Resp.err 400 "Invalid JSON format in result.json".data
        | Except.error PErr.other => Resp.err 500 "Unexpected error".data)

/-- GET `/api/devices/{device_id}/logs/{date}/opensmile/{time_slot}`
(lines 687-707). -/
def get_opensmile_features {J : Type} (parseJson : Bytes → Except PErr J) (fs : FS)
    (device_id date time_slot : List Char) : List Char × Resp J :=
  let p := pjoin (pjoin (pjoin (pjoin BASE_DIR device_id) date) opensmileSeg)
    (time_slot ++ jsonExt)
  (p, match fsGet fs p with
      | none =>
        Resp.err 404 ("OpenSMILE features file not found for slot ".data ++ time_slot)
      | some b =>
        match parseJson b with
        | Except.ok doc => Resp.jsonOk doc
        | Except.error PErr.decode =>
          Resp.err 400 ("Invalid JSON format in ".data ++ time_slot ++ jsonExt)
        | Except.error PErr.other => Resp.err 500 "Unexpected error".data)

/-- GET `/api/users/{user_id}/logs/{date}/opensmile/{time_slot}`
(lines 710-730). -/
def get_opensmile_features_legacy {J : Type} (parseJson : Bytes → Except PErr J) (fs : FS)
    (user_id date time_slot : List Char) : List Char × Resp J :=
  let p := pjoin (pjoin (pjoin (pjoin BASE_DIR user_id) date) opensmileSeg)
    (time_slot ++ jsonExt)
  (p, match fsGet fs p with
      | none =>
        Resp.err 404 ("OpenSMILE features file not found for slot ".data ++ time_slot)
      | some b =>
        match parseJson b with
        | Except.ok doc => Resp.jsonOk doc
        | Except.error PErr.decode =>
          Resp.err 400 ("Invalid JSON format in ".data ++ time_slot ++ jsonExt)
        | Except.error PErr.other => Resp.err 500 "Unexpected error".data)

/-- GET `/api/devices/{device_id}/logs/{date}/opensmile-summary`
(lines 736-756). -/
def get_opensmile_summary {J : Type} (parseJson : Bytes → Except PErr J) (fs : FS)
    (device_id date : List Char) : List Char × Resp J :=
  let p := pjoin (pjoin (pjoin (pjoin BASE_DIR device_id) date) "opensmile-summary".data)
    "result.json".data
  (p, match fsGet fs p with
      | none => Resp.err 404 "OpenSMILE summary file not found".data
      | some b =>
        match parseJson b with
        | Except.ok doc => Resp.jsonOk doc
        | Except.error PErr.decode => Resp.err 400 "Invalid JSON format in result.json".data
        | Except.error PErr.other => Resp.err 500 "Unexpected error".data)

/-- GET `/api/users/{user_id}/logs/{date}/opensmile-summary` (lines 759-779). -/
def get_opensmile_summary_legacy {J : Type} (parseJson : Bytes → Except PErr J) (fs : FS)
    (user_id date : List Char) : List Char × Resp J :=
  let p := pjoin (pjoin (pjoin (pjoin BASE_DIR user_id) date) "opensmile-summary".data)
    "result.json".data
  (p, match fsGet fs p with
      | none => Resp.err 404 "OpenSMILE summary file not found".data
      | some b =>
        match parseJson b with
        | Except.ok doc => Resp.jsonOk doc
        | Except.error PErr.decode => Resp.err 400 "Invalid JSON format in result.json".data
        | Except.error PErr.other => Resp.err 500 "Unexpected error".data)

/-! The OpenSMILE slot-listing endpoints. -/

/-- Lexicographic order on char lists (Python string `<=` by code points). -/
def lexLeB : List Char → List Char → Bool
  | [], _ => true
  | _ :: _, [] => false
  | a :: as, b :: bs => (a < b) || ((a == b) && lexLeB as bs)

def lexLe (a b : List Char) : Prop := lexLeB a b = true

instance : DecidableRel lexLe := fun a b => by unfold lexLe; infer_instance

/-- Python `f.replace(".json", "")`: removes every occurrence of the
substring, scanning left to right. -/
def replaceJson : List Char → List Char
  | '.' :: 'j' :: 's' :: 'o' :: 'n' :: rest => replaceJson rest
  | c :: rest => c :: replaceJson rest
  | [] => []

/-- The body of the slot-listing response. The empty-directory branch of the
code returns no `directory` key, hence the `Option`. -/
structure OpensmileList where
  available_slots : List (List Char)
  count : Nat
  has_summary : Bool
  directory : Option (List Char)
deriving DecidableEq

/-- GET `/api/devices/{device_id}/logs/{date}/opensmile` (lines 785-815).
`entries` is what `os.listdir(features_dir)` returned (order unspecified) when
the directory exists; `summaryExists` is the `os.path.exists` test on
`opensmile-summary/result.json`. -/
def list_opensmile_features (device_id date : List Char) (dirExists : Bool)
    (entries : List (List Char)) (summaryExists : Bool) : OpensmileList :=
  let featuresDir := pjoin (pjoin (pjoin BASE_DIR device_id) date) opensmileSeg
  if !dirExists then ⟨[], 0, false, none⟩
  else
    let allFiles := entries.filter (fun f => endsWithL f jsonExt)
    let timeSlots := List.insertionSort lexLe (allFiles.map replaceJson)
    ⟨timeSlots, timeSlots.length, summaryExists, some featuresDir⟩

/-- GET `/api/users/{user_id}/logs/{date}/opensmile` (lines 818-848). -/
def list_opensmile_features_legacy (user_id date : List Char) (dirExists : Bool)
    (entries : List (List Char)) (summaryExists : Bool) : OpensmileList :=
  let featuresDir := pjoin (pjoin (pjoin BASE_DIR user_id) date) opensmileSeg
  if !dirExists then ⟨[], 0, false, none⟩
  else
    let allFiles := entries.filter (fun f => endsWithL f jsonExt)
    let timeSlots := List.insertionSort lexLe (allFiles.map replaceJson)
    ⟨timeSlots, timeSlots.length, summaryExists, some featuresDir⟩

/-! The date sorting of the /status tree (app.py `_sort_dates`, lines 301-307):
`sorted(dates, key=to_dt, reverse=True)` where `to_dt` is
`datetime.strptime(s, "%Y-%m-%d")` with `ValueError` mapped to `datetime.min`.
CPython's strptime matches `%Y` as exactly four digits, `%m` as
`1[0-2]|0[1-9]|[1-9]`, `%d` as `3[01]|[12]\d|0[1-9]|[1-9]`, requires the whole
string to be consumed, and `datetime()` then validates the calendar
(year at least 1, day at most the month's length). -/

def isLeap (y : Nat) : Bool := ((y % 4 == 0) && !(y % 100 == 0)) || (y % 400 == 0)

def daysInMonth (y m : Nat) : Nat :=
  if m = 2 then (if isLeap y then 29 else 28)
  else if m = 4 ∨ m = 6 ∨ m = 9 ∨ m = 11 then 30
  else 31

def digitVal (c : Char) : Nat := c.toNat - '0'.toNat

/-- The strptime `%m` pattern followed by the literal `'-'`; returns the month
and the rest of the string. -/
def parseMonth : List Char → Option (Nat × List Char)
  | a :: b :: '-' :: rest =>
    if isDigitC a && isDigitC b && 1 ≤ digitVal a * 10 + digitVal b &&
        digitVal a * 10 + digitVal b ≤ 12 then
      some (digitVal a * 10 + digitVal b, rest)
    else none
  | a :: '-' :: rest =>
    if isDigitC a && 1 ≤ digitVal a then some (digitVal a, rest) else none
  | _ => none

/-- The strptime `%d` pattern, required to consume the rest of the string. -/
def parseDay : List Char → Option Nat
  | [a, b] =>
    if isDigitC a && isDigitC b && 1 ≤ digitVal a * 10 + digitVal b &&
        digitVal a * 10 + digitVal b ≤ 31 then
      some (digitVal a * 10 + digitVal b)
    else none
  | [a] => if isDigitC a && 1 ≤ digitVal a then some (digitVal a) else none
  | _ => none

/-- `datetime.strptime(s, "%Y-%m-%d")`, `none` on `ValueError`. -/
def parsePyDate (s : List Char) : Option (Nat × Nat × Nat) :=
  match s with
  | y1 :: y2 :: y3 :: y4 :: '-' :: rest =>
    if isDigitC y1 && isDigitC y2 && isDigitC y3 && isDigitC y4 then
      let y := digitVal y1 * 1000 + digitVal y2 * 100 + digitVal y3 * 10 + digitVal y4
      match parseMonth rest with
      | some (m, rest2) =>
        match parseDay rest2 with
        | some d => if 1 ≤ y ∧ d ≤ daysInMonth y m then some (y, m, d) else none
        | none => none
      | none => none
    else none
  | _ => none

/-- The sort key of `_sort_dates`, encoded monotonically as
`y*10000 + m*100 + d`; an unparseable name gets `datetime.min`, that is
`(1, 1, 1)`, encoded `10101`. -/
def dateKey (s : List Char) : Nat :=
  match parsePyDate s with
  | some (y, m, d) => y * 10000 + m * 100 + d
  | none => 10101

/-- The comparator realising `sorted(…, key=to_dt, reverse=True)`: `a` may
come before `b` when its key is at least `b`'s. -/
def dateGe (a b : List Char) : Prop := dateKey b ≤ dateKey a

instance : DecidableRel dateGe := fun a b => by unfold dateGe; infer_instance

/-- app.py `_sort_dates`: stable descending sort by `dateKey`. -/
def sort_dates (dates : List (List Char)) : List (List Char) :=
  List.insertionSort dateGe dates

/-! The shape of the accepted audio paths, written out from the
specification's description (`device_id/YYYY-MM-DD/raw/HH-MM.wav`): the
specification-side characterisation against which the regex embedding is
compared. -/

def devOk (l : List Char) : Prop := l ≠ [] ∧ ∀ c ∈ l, isDevChar c = true

def dateShape (l : List Char) : Prop :=
  ∃ y1 y2 y3 y4 m1 m2 d1 d2,
    (isDigitC y1 && isDigitC y2 && isDigitC y3 && isDigitC y4 && isDigitC m1 && isDigitC m2 &&
      isDigitC d1 && isDigitC d2) = true ∧
    l = [y1, y2, y3, y4, '-', m1, m2, '-', d1, d2]

def slotShape (l : List Char) : Prop :=
  ∃ a b c d, (isDigitC a && isDigitC b && isDigitC c && isDigitC d) = true ∧ l = [a, b, '-', c, d]

/-- A string of the documented shape `device_id/YYYY-MM-DD/raw/HH-MM.wav`. -/
def audioShape (s : List Char) : Prop :=
  ∃ dev date slot, devOk dev ∧ dateShape date ∧ slotShape slot ∧
    s = dev ++ '/' :: (date ++ '/' :: (rawSeg ++ '/' :: (slot ++ wavExt)))

/-- The specification's "extension-stripped name" of a `.json` child: the name
with one final `.json` removed. -/
def stripJsonExt (l : List Char) : List Char :=
  if endsWithL l jsonExt then l.take (l.length - 5) else l

/-! Concrete fixtures used by the closed witness and counterexample theorems. -/

/-- A store holding one file at the literal joined path a traversal request
produces (the OS would resolve it outside the base directory). -/
def fsTraversal : FS := ⟨[], [("/home/ubuntu/data/data_accounts/../secret.json".data, [42])]⟩

/-- A parse stub whose every outcome is `json.JSONDecodeError`. -/
def parseFailDecode : Bytes → Except PErr Nat := fun _ => Except.error PErr.decode

/-- A parse stub that always succeeds with the document `0`. -/
def parseOkZero : Bytes → Except PErr Nat := fun _ => Except.ok 0

/-- A store holding the four analysis artifacts of device `d`, date `t`. -/
def fsAnalysis : FS :=
  ⟨[],
    [("/home/ubuntu/data/data_accounts/d/t/emotion-timeline/emotion-timeline.json".data, [0]),
     ("/home/ubuntu/data/data_accounts/d/t/sed-summary/result.json".data, [0]),
     ("/home/ubuntu/data/data_accounts/d/t/opensmile-summary/result.json".data, [0]),
     ("/home/ubuntu/data/data_accounts/d/t/opensmile/s.json".data, [0])]⟩

/-! Helper lemmas about `splitOnSlash`. -/

theorem splitOnSlash_ne_nil (l : List Char) : splitOnSlash l ≠ [] := by
  cases l with
  | nil => simp [splitOnSlash]
  | cons c rest =>
    by_cases h : c = '/'
    · simp [splitOnSlash, h]
    · cases hs : splitOnSlash rest with
      | nil => simp [splitOnSlash, h, hs]
      | cons p ps => simp [splitOnSlash, h, hs]

theorem splitOnSlash_no_slash (l : List Char) (h : '/' ∉ l) : splitOnSlash l = [l] := by
  induction l with
  | nil => rfl
  | cons c rest ih =>
    have hc : ¬ c = '/' := fun he => h (by rw [he]; exact List.mem_cons_self _ _)
    have hrest : '/' ∉ rest := fun hm => h (List.mem_cons_of_mem _ hm)
    simp [splitOnSlash, hc, ih hrest]

theorem splitOnSlash_append (a r : List Char) (h : '/' ∉ a) :
    splitOnSlash (a ++ '/' :: r) = a :: splitOnSlash r := by
  induction a with
  | nil => simp [splitOnSlash]
  | cons c rest ih =>
    have hc : ¬ c = '/' := fun he => h (by rw [he]; exact List.mem_cons_self _ _)
    have hrest : '/' ∉ rest := fun hm => h (List.mem_cons_of_mem _ hm)
    simp [splitOnSlash, hc, ih hrest]

theorem joinSlash_splitOnSlash (l : List Char) : joinSlash (splitOnSlash l) = l := by
  induction l with
  | nil => rfl
  | cons c rest ih =>
    by_cases h : c = '/'
    · subst h
      cases hs : splitOnSlash rest with
      | nil => exact absurd hs (splitOnSlash_ne_nil rest)
      | cons p ps =>
        rw [hs] at ih
        simp [splitOnSlash, hs, joinSlash, ih]
    · cases hs : splitOnSlash rest with
      | nil => exact absurd hs (splitOnSlash_ne_nil rest)
      | cons p ps =>
        rw [hs] at ih
        cases ps with
        | nil =>
          simp [joinSlash] at ih
          simp [splitOnSlash, h, hs, joinSlash, ih]
        | cons q ps2 =>
          simp [joinSlash] at ih ⊢
          simp [splitOnSlash, h, hs, joinSlash, ih]

/-! Inversion lemmas for the regex segment checkers. -/

theorem isValidDatePart_inv (l : List Char) (h : isValidDatePart l = true) :
    ∃ y1 y2 y3 y4 m1 m2 d1 d2,
      (isDigitC y1 && isDigitC y2 && isDigitC y3 && isDigitC y4 && isDigitC m1 && isDigitC m2 &&
        isDigitC d1 && isDigitC d2) = true ∧
      l = [y1, y2, y3, y4, '-', m1, m2, '-', d1, d2] := by
  unfold isValidDatePart at h
  split at h
  · next y1 y2 y3 y4 m1 m2 d1 d2 => exact ⟨y1, y2, y3, y4, m1, m2, d1, d2, h, rfl⟩
  · simp at h

theorem isValidFilePart_inv (l : List Char) (h : isValidFilePart l = true) :
    ∃ a b c d,
      (isDigitC a && isDigitC b && isDigitC c && isDigitC d) = true ∧
      l = [a, b, '-', c, d, '.', 'w', 'a', 'v'] := by
  unfold isValidFilePart at h
  split at h
  · next a b c d => exact ⟨a, b, c, d, h, rfl⟩
  · simp at h

/-! Character facts. -/

theorem isDigitC_ne_dot {c : Char} (h : isDigitC c = true) : c ≠ '.' := by
  intro he; subst he; exact absurd h (by decide)

theorem isDigitC_ne_slash {c : Char} (h : isDigitC c = true) : c ≠ '/' := by
  intro he; subst he; exact absurd h (by decide)

theorem isDigitC_ne_backslash {c : Char} (h : isDigitC c = true) : c ≠ '\\' := by
  intro he; subst he; exact absurd h (by decide)

theorem isDevChar_ne_dot {c : Char} (h : isDevChar c = true) : c ≠ '.' := by
  intro he; subst he; exact absurd h (by decide)

theorem isDevChar_ne_slash {c : Char} (h : isDevChar c = true) : c ≠ '/' := by
  intro he; subst he; exact absurd h (by decide)

theorem isDevChar_ne_backslash {c : Char} (h : isDevChar c = true) : c ≠ '\\' := by
  intro he; subst he; exact absurd h (by decide)

/-! Facts about `containsDD`. -/

theorem containsDD_eq_false {l : List Char} (h : ∀ c ∈ l, c ≠ '.') : containsDD l = false := by
  induction l with
  | nil => rfl
  | cons a t ih =>
    cases t with
    | nil => rfl
    | cons b t2 =>
      have ha : (a == '.') = false := beq_eq_false_iff_ne.mpr (h a (List.mem_cons_self _ _))
      have hrest : ∀ c ∈ b :: t2, c ≠ '.' := fun c hc => h c (List.mem_cons_of_mem _ hc)
      simp [containsDD, ha, ih hrest]

theorem containsDD_filePart {a b c d : Char} (ha : isDigitC a = true) (hb : isDigitC b = true)
    (hc : isDigitC c = true) (hd : isDigitC d = true) :
    containsDD [a, b, '-', c, d, '.', 'w', 'a', 'v'] = false := by
  simp [containsDD, beq_eq_false_iff_ne.mpr (isDigitC_ne_dot ha),
    beq_eq_false_iff_ne.mpr (isDigitC_ne_dot hb), beq_eq_false_iff_ne.mpr (isDigitC_ne_dot hc),
    beq_eq_false_iff_ne.mpr (isDigitC_ne_dot hd)]

theorem dateShape_no_slash {l : List Char} (h : dateShape l) : '/' ∉ l := by
  obtain ⟨y1, y2, y3, y4, m1, m2, d1, d2, hd, rfl⟩ := h
  simp only [Bool.and_eq_true] at hd
  obtain ⟨⟨⟨⟨⟨⟨⟨h1, h2⟩, h3⟩, h4⟩, h5⟩, h6⟩, h7⟩, h8⟩ := hd
  intro hm
  simp only [List.mem_cons, List.not_mem_nil, or_false] at hm
  rcases hm with h | h | h | h | h | h | h | h | h | h
  · exact isDigitC_ne_slash h1 h.symm
  · exact isDigitC_ne_slash h2 h.symm
  · exact isDigitC_ne_slash h3 h.symm
  · exact isDigitC_ne_slash h4 h.symm
  · exact absurd h (by decide)
  · exact isDigitC_ne_slash h5 h.symm
  · exact isDigitC_ne_slash h6 h.symm
  · exact absurd h (by decide)
  · exact isDigitC_ne_slash h7 h.symm
  · exact isDigitC_ne_slash h8 h.symm

theorem slotWav_no_slash {l : List Char} (h : slotShape l) : '/' ∉ (l ++ wavExt) := by
  obtain ⟨a, b, c, d, hd, rfl⟩ := h
  simp only [Bool.and_eq_true] at hd
  obtain ⟨⟨⟨h1, h2⟩, h3⟩, h4⟩ := hd
  have he : ([a, b, '-', c, d] ++ wavExt) = [a, b, '-', c, d, '.', 'w', 'a', 'v'] := rfl
  rw [he]
  intro hm
  simp only [List.mem_cons, List.not_mem_nil, or_false] at hm
  rcases hm with h | h | h | h | h | h | h | h | h
  · exact isDigitC_ne_slash h1 h.symm
  · exact isDigitC_ne_slash h2 h.symm
  · exact absurd h (by decide)
  · exact isDigitC_ne_slash h3 h.symm
  · exact isDigitC_ne_slash h4 h.symm
  · exact absurd h (by decide)
  · exact absurd h (by decide)
  · exact absurd h (by decide)
  · exact absurd h (by decide)

theorem splitOnSlash_audioPath {dev date slot : List Char} (hdev : devOk dev)
    (hdate : dateShape date) (hslot : slotShape slot) :
    splitOnSlash (dev ++ '/' :: (date ++ '/' :: (rawSeg ++ '/' :: (slot ++ wavExt)))) =
      [dev, date, rawSeg, slot ++ wavExt] := by
  have h1 : '/' ∉ dev := fun hm => absurd (hdev.2 '/' hm) (by decide)
  have h2 : '/' ∉ date := dateShape_no_slash hdate
  have h3 : '/' ∉ rawSeg := by decide
  have h4 : '/' ∉ (slot ++ wavExt) := slotWav_no_slash hslot
  rw [splitOnSlash_append _ _ h1, splitOnSlash_append _ _ h2, splitOnSlash_append _ _ h3,
    splitOnSlash_no_slash _ h4]

theorem matchesCore_of_audioShape {s : List Char} (h : audioShape s) : matchesCore s = true := by
  obtain ⟨dev, date, slot, hdev, hdate, hslot, rfl⟩ := h
  unfold matchesCore
  rw [splitOnSlash_audioPath hdev hdate hslot]
  have hdv : isValidDevicePart dev = true := by
    obtain ⟨hne, hall⟩ := hdev
    have h0 : dev.isEmpty = false := by
      cases dev with
      | nil => exact absurd rfl hne
      | cons _ _ => rfl
    simp only [isValidDevicePart, h0, Bool.not_false, Bool.true_and, List.all_eq_true]
    exact hall
  have hdt : isValidDatePart date = true := by
    obtain ⟨y1, y2, y3, y4, m1, m2, d1, d2, hd, rfl⟩ := hdate
    simpa [isValidDatePart] using hd
  have hfl : isValidFilePart (slot ++ wavExt) = true := by
    obtain ⟨a, b, c, d, hd, rfl⟩ := hslot
    have he : ([a, b, '-', c, d] ++ wavExt) = [a, b, '-', c, d, '.', 'w', 'a', 'v'] := rfl
    rw [he]
    simpa [isValidFilePart] using hd
  simp [hdv, hdt, hfl]

theorem audioShape_of_matchesCore {s : List Char} (h : matchesCore s = true) : audioShape s := by
  unfold matchesCore at h
  split at h
  · next dv dt rw0 fl heq =>
    simp only [Bool.and_eq_true, beq_iff_eq] at h
    obtain ⟨⟨⟨hdv, hdt⟩, hrw0⟩, hfl⟩ := h
    subst hrw0
    obtain ⟨a, b, c, d, hdig, rfl⟩ := isValidFilePart_inv fl hfl
    have hsplit : s = joinSlash (splitOnSlash s) := (joinSlash_splitOnSlash s).symm
    rw [heq] at hsplit
    simp only [isValidDevicePart, Bool.and_eq_true, Bool.not_eq_true',
      List.all_eq_true] at hdv
    have hne : dv ≠ [] := by
      intro he
      have h0 := hdv.1
      rw [he] at h0
      simp at h0
    refine ⟨dv, dt, [a, b, '-', c, d], ⟨hne, hdv.2⟩, ?_, ⟨a, b, c, d, hdig, rfl⟩, ?_⟩
    · obtain ⟨y1, y2, y3, y4, m1, m2, d1, d2, hd, rfl⟩ := isValidDatePart_inv dt hdt
      exact ⟨y1, y2, y3, y4, m1, m2, d1, d2, hd, rfl⟩
    · rw [hsplit]
      rfl
  · exact absurd h (by simp)

theorem matchesCore_iff_audioShape (s : List Char) : matchesCore s = true ↔ audioShape s :=
  ⟨audioShape_of_matchesCore, matchesCore_of_audioShape⟩

theorem matchesAudioPath_iff (s : List Char) :
    matchesAudioPath s = true ↔ (audioShape s ∨ ∃ t, audioShape t ∧ s = t ++ ['\n']) := by
  unfold matchesAudioPath
  simp only [Bool.or_eq_true, Bool.and_eq_true, beq_iff_eq]
  constructor
  · rintro (h | ⟨hl, hc⟩)
    · exact Or.inl (audioShape_of_matchesCore h)
    · refine Or.inr ⟨s.dropLast, audioShape_of_matchesCore hc, ?_⟩
      have hne : s ≠ [] := by intro he; rw [he] at hl; simp at hl
      have hg : s.getLast hne = '\n' := by
        have h2 := List.getLast?_eq_getLast s hne
        rw [hl] at h2
        exact (Option.some.injEq _ _ ▸ h2).symm
      have h3 := List.dropLast_append_getLast hne
      rw [hg] at h3
      exact h3.symm
  · rintro (h | ⟨t, ht, rfl⟩)
    · exact Or.inl (matchesCore_of_audioShape h)
    · refine Or.inr ⟨?_, ?_⟩
      · exact List.getLast?_concat t
      · rw [List.dropLast_concat]
        exact matchesCore_of_audioShape ht

/-! Per-segment facts feeding the traversal check. -/

theorem dateShape_chars {l : List Char} (h : dateShape l) :
    ∀ c ∈ l, isDigitC c = true ∨ c = '-' := by
  obtain ⟨y1, y2, y3, y4, m1, m2, d1, d2, hd, rfl⟩ := h
  simp only [Bool.and_eq_true] at hd
  obtain ⟨⟨⟨⟨⟨⟨⟨h1, h2⟩, h3⟩, h4⟩, h5⟩, h6⟩, h7⟩, h8⟩ := hd
  intro c0 hc0
  simp only [List.mem_cons, List.not_mem_nil, or_false] at hc0
  rcases hc0 with h | h | h | h | h | h | h | h | h | h <;> subst h
  · exact Or.inl h1
  · exact Or.inl h2
  · exact Or.inl h3
  · exact Or.inl h4
  · exact Or.inr rfl
  · exact Or.inl h5
  · exact Or.inl h6
  · exact Or.inr rfl
  · exact Or.inl h7
  · exact Or.inl h8

theorem badPart_devOk {dev : List Char} (hdev : devOk dev) : badPart dev = false := by
  obtain ⟨hne, hall⟩ := hdev
  have hdd : containsDD dev = false :=
    containsDD_eq_false (fun c hc => isDevChar_ne_dot (hall c hc))
  cases dev with
  | nil => exact absurd rfl hne
  | cons c rest =>
    have h1 : (c == '/') = false :=
      beq_eq_false_iff_ne.mpr (isDevChar_ne_slash (hall c (List.mem_cons_self _ _)))
    have h2 : (c == '\\') = false :=
      beq_eq_false_iff_ne.mpr (isDevChar_ne_backslash (hall c (List.mem_cons_self _ _)))
    simp [badPart, startsWithC, hdd, h1, h2]

theorem badPart_dateShape {date : List Char} (h : dateShape date) : badPart date = false := by
  have hchars := dateShape_chars h
  have hdd : containsDD date = false := containsDD_eq_false (fun c hc => by
    rcases hchars c hc with hd | rfl
    · exact isDigitC_ne_dot hd
    · decide)
  obtain ⟨y1, y2, y3, y4, m1, m2, d1, d2, hd, rfl⟩ := h
  rcases hchars y1 (by simp) with hd1 | rfl
  · simp [badPart, startsWithC, hdd, beq_eq_false_iff_ne.mpr (isDigitC_ne_slash hd1),
      beq_eq_false_iff_ne.mpr (isDigitC_ne_backslash hd1)]
  · have e1 : (('-' : Char) == '/') = false := by decide
    have e2 : (('-' : Char) == '\\') = false := by decide
    simp [badPart, startsWithC, hdd, e1, e2]

theorem badPart_fileShape {slot : List Char} (h : slotShape slot) :
    badPart (slot ++ wavExt) = false := by
  obtain ⟨a, b, c, d, hd, rfl⟩ := h
  simp only [Bool.and_eq_true] at hd
  obtain ⟨⟨⟨h1, h2⟩, h3⟩, h4⟩ := hd
  have he : ([a, b, '-', c, d] ++ wavExt) = [a, b, '-', c, d, '.', 'w', 'a', 'v'] := rfl
  rw [he]
  simp [badPart, startsWithC, containsDD_filePart h1 h2 h3 h4,
    beq_eq_false_iff_ne.mpr (isDigitC_ne_slash h1),
    beq_eq_false_iff_ne.mpr (isDigitC_ne_backslash h1)]

theorem hasTraversalComponent_audioShape {s : List Char} (h : audioShape s) :
    hasTraversalComponent s = false := by
  obtain ⟨dev, date, slot, hdev, hdate, hslot, rfl⟩ := h
  unfold hasTraversalComponent
  rw [splitOnSlash_audioPath (by exact hdev) hdate hslot]
  simp [List.any_cons, List.any_nil, badPart_devOk hdev, badPart_dateShape hdate,
    badPart_fileShape hslot, (by decide : badPart rawSeg = false)]

/-! Path-join facts. -/

theorem pjoin_eq {a b : List Char} (hb : b.head? ≠ some '/') (ha : a ≠ [])
    (ha2 : a.getLast? ≠ some '/') : pjoin a b = a ++ '/' :: b := by
  unfold pjoin
  rw [if_neg hb, if_neg (not_or.mpr ⟨ha, ha2⟩)]

theorem fsGet_fsWrite (fs : FS) (dir p : List Char) (content : Bytes) :
    fsGet (fsWrite fs dir p content) p = some content := by
  simp [fsGet, fsWrite, List.lookup]

theorem devOk_facts {dev : List Char} (h : devOk dev) :
    dev ≠ [] ∧ dev.head? ≠ some '/' ∧ dev.getLast? ≠ some '/' := by
  obtain ⟨hne, hall⟩ := h
  refine ⟨hne, ?_, ?_⟩
  · cases dev with
    | nil => simp
    | cons c r =>
      simp only [List.head?_cons, ne_eq, Option.some.injEq]
      exact isDevChar_ne_slash (hall c (List.mem_cons_self _ _))
  · intro hl
    have hmem : '/' ∈ dev := List.mem_of_mem_getLast? (by rw [hl]; rfl)
    exact isDevChar_ne_slash (hall _ hmem) rfl

theorem dateShape_facts {l : List Char} (h : dateShape l) :
    l ≠ [] ∧ l.head? ≠ some '/' ∧ l.getLast? ≠ some '/' := by
  obtain ⟨y1, y2, y3, y4, m1, m2, d1, d2, hd, rfl⟩ := h
  simp only [Bool.and_eq_true] at hd
  obtain ⟨⟨⟨⟨⟨⟨⟨h1, h2⟩, h3⟩, h4⟩, h5⟩, h6⟩, h7⟩, h8⟩ := hd
  refine ⟨by simp, ?_, ?_⟩
  · simp only [List.head?_cons, ne_eq, Option.some.injEq]
    exact isDigitC_ne_slash h1
  · have he : ([y1, y2, y3, y4, '-', m1, m2, '-', d1, d2]).getLast? = some d2 := rfl
    rw [he]
    simp only [ne_eq, Option.some.injEq]
    exact isDigitC_ne_slash h8

theorem slotShape_facts {l : List Char} (h : slotShape l) :
    l ≠ [] ∧ l.head? ≠ some '/' ∧ l.getLast? ≠ some '/' := by
  obtain ⟨a, b, c, d, hd, rfl⟩ := h
  simp only [Bool.and_eq_true] at hd
  obtain ⟨⟨⟨h1, h2⟩, h3⟩, h4⟩ := hd
  refine ⟨by simp, ?_, ?_⟩
  · simp only [List.head?_cons, ne_eq, Option.some.injEq]
    exact isDigitC_ne_slash h1
  · have he : ([a, b, '-', c, d]).getLast? = some d := rfl
    rw [he]
    simp only [ne_eq, Option.some.injEq]
    exact isDigitC_ne_slash h4

/-- Normal form of the four-component `os.path.join` chains the JSON
endpoints build, for segments that join plainly. -/
theorem pjoin_chain (dev date seg fn : List Char)
    (hdev : dev ≠ []) (hdevh : dev.head? ≠ some '/') (hdevl : dev.getLast? ≠ some '/')
    (hdate : date ≠ []) (hdateh : date.head? ≠ some '/') (hdatel : date.getLast? ≠ some '/')
    (hseg : seg ≠ []) (hsegh : seg.head? ≠ some '/') (hsegl : seg.getLast? ≠ some '/')
    (hfnh : fn.head? ≠ some '/') :
    pjoin (pjoin (pjoin (pjoin BASE_DIR dev) date) seg) fn =
      BASE_DIR ++ '/' :: (dev ++ '/' :: (date ++ '/' :: (seg ++ '/' :: fn))) := by
  have hB : (BASE_DIR : List Char) ≠ [] := by decide
  have hBl : BASE_DIR.getLast? ≠ some '/' := by decide
  have j1 : pjoin BASE_DIR dev = BASE_DIR ++ '/' :: dev := pjoin_eq hdevh hB hBl
  have l1 : (BASE_DIR ++ '/' :: dev).getLast? = dev.getLast? := by
    rw [List.getLast?_append_cons]
    cases dev with
    | nil => exact absurd rfl hdev
    | cons c r => rw [List.getLast?_cons_cons]
  have j2 : pjoin (BASE_DIR ++ '/' :: dev) date = (BASE_DIR ++ '/' :: dev) ++ '/' :: date :=
    pjoin_eq hdateh (by simp) (by rw [l1]; exact hdevl)
  have l2 : ((BASE_DIR ++ '/' :: dev) ++ '/' :: date).getLast? = date.getLast? := by
    rw [List.getLast?_append_cons]
    cases date with
    | nil => exact absurd rfl hdate
    | cons c r => rw [List.getLast?_cons_cons]
  have j3 : pjoin ((BASE_DIR ++ '/' :: dev) ++ '/' :: date) seg =
      ((BASE_DIR ++ '/' :: dev) ++ '/' :: date) ++ '/' :: seg :=
    pjoin_eq hsegh (by simp) (by rw [l2]; exact hdatel)
  have l3 : (((BASE_DIR ++ '/' :: dev) ++ '/' :: date) ++ '/' :: seg).getLast? =
      seg.getLast? := by
    rw [List.getLast?_append_cons]
    cases seg with
    | nil => exact absurd rfl hseg
    | cons c r => rw [List.getLast?_cons_cons]
  have j4 : pjoin (((BASE_DIR ++ '/' :: dev) ++ '/' :: date) ++ '/' :: seg) fn =
      (((BASE_DIR ++ '/' :: dev) ++ '/' :: date) ++ '/' :: seg) ++ '/' :: fn :=
    pjoin_eq hfnh (by simp) (by rw [l3]; exact hsegl)
  rw [j1, j2, j3, j4]
  simp [List.append_assoc, List.cons_append]

theorem audioShape_getLast {s : List Char} (h : audioShape s) : s.getLast? = some 'v' := by
  obtain ⟨dev, date, slot, _, hdate, hslot, rfl⟩ := h
  obtain ⟨y1, y2, y3, y4, m1, m2, d1, d2, _, rfl⟩ := hdate
  obtain ⟨a, b, c, d, _, rfl⟩ := hslot
  have hw : ([a, b, '-', c, d] ++ wavExt) = [a, b, '-', c, d, '.', 'w', 'a', 'v'] := rfl
  rw [hw, List.getLast?_append_cons]
  simp [List.getLast?_cons_cons, List.cons_append, rawSeg]


/-! Order-theoretic facts for the two sorts. -/

theorem lexLeB_total (a b : List Char) : lexLeB a b = true ∨ lexLeB b a = true := by
  induction a generalizing b with
  | nil => left; rfl
  | cons x xs ih =>
    cases b with
    | nil => right; rfl
    | cons y ys =>
      rcases lt_trichotomy x y with h | h | h
      · left; simp [lexLeB, h]
      · subst h
        rcases ih ys with h2 | h2
        · left; simp [lexLeB] at h2 ⊢; exact h2
        · right; simp [lexLeB] at h2 ⊢; exact h2
      · right; simp [lexLeB, h]

theorem lexLeB_trans : ∀ a b c : List Char,
    lexLeB a b = true → lexLeB b c = true → lexLeB a c = true := by
  intro a
  induction a with
  | nil => intro b c _ _; rfl
  | cons x xs ih =>
    intro b c h1 h2
    cases b with
    | nil => simp [lexLeB] at h1
    | cons y ys =>
      cases c with
      | nil => simp [lexLeB] at h2
      | cons z zs =>
        simp only [lexLeB, Bool.or_eq_true, Bool.and_eq_true, beq_iff_eq,
          decide_eq_true_eq] at h1 h2 ⊢
        rcases h1 with h1 | ⟨rfl, h1t⟩
        · rcases h2 with h2 | ⟨rfl, h2t⟩
          · exact Or.inl (lt_trans h1 h2)
          · exact Or.inl h1
        · rcases h2 with h2 | ⟨rfl, h2t⟩
          · exact Or.inl h2
          · exact Or.inr ⟨rfl, ih ys zs h1t h2t⟩

instance : IsTotal (List Char) lexLe := ⟨lexLeB_total⟩

instance : IsTrans (List Char) lexLe := ⟨fun a b c => lexLeB_trans a b c⟩

instance : IsTotal (List Char) dateGe := ⟨fun a b => Nat.le_total (dateKey b) (dateKey a)⟩

instance : IsTrans (List Char) dateGe := ⟨fun _ _ _ hab hbc => le_trans hbc hab⟩

/-! The claims. -/

/-- C1: at the audio-upload endpoint, every client-supplied `X-File-Path`
whose split on `'/'` has a segment containing `..`, or a segment starting
with `'/'` or `'\'`, is answered with a 400 error — by the format check or by
the dedicated traversal check — and the store comes back unchanged: nothing
is created or written. -/
theorem upload_rejects_traversal_paths (J : Type) (fs : FS) (content : Bytes) (fp : List Char)
    (h : hasTraversalComponent fp = true) :
    ∃ detail, upload_file (J := J) fs (some fp) content = (Resp.err 400 detail, fs) := by
  by_cases he : fp.isEmpty = true
  · exact ⟨"X-File-Path header is required for audio file uploads".data,
      by simp [upload_file, he]⟩
  · by_cases hm : matchesAudioPath fp = true
    · exact ⟨"Invalid path components detected".data, by simp [upload_file, he, hm, h]⟩
    · exact ⟨"Invalid file path format. Expected: device_id/YYYY-MM-DD/raw/HH-MM.wav".data,
        by simp [upload_file, he, hm]⟩

/-- Witness for C1 at the concrete header path `a/../b`. -/
theorem upload_rejects_traversal_paths_witness :
    hasTraversalComponent "a/../b".data = true ∧
    ∃ detail, upload_file (J := Nat) emptyFS (some "a/../b".data) [] =
      (Resp.err 400 detail, emptyFS) :=
  ⟨by decide, upload_rejects_traversal_paths Nat emptyFS [] "a/../b".data (by decide)⟩

/-- C10: an audio-upload request without the `X-File-Path` header is answered
with a 400 error; no path is derived from the form fields and the store is
returned unchanged. -/
theorem upload_requires_header (J : Type) (fs : FS) (content : Bytes) :
    upload_file (J := J) fs none content =
      (Resp.err 400 "X-File-Path header is required for audio file uploads".data, fs) := rfl

/-- C5: every JSON-only upload endpoint (prompt, emotion-timeline,
sed-timeline, sed-summary, opensmile-features, opensmile-summary) answers a
filename not ending in `.json` with a 400 error and leaves the store
unchanged: no directory is created and no file is written. -/
theorem json_endpoints_reject_non_json (J : Type) (fs : FS)
    (filename : List Char) (content : Bytes) (dev date tb : List Char)
    (h : endsWithL filename jsonExt = false) :
    upload_prompt (J := J) fs filename content dev date =
      (Resp.err 400 "Only .json allowed".data, fs) ∧
    upload_emotion_timeline (J := J) fs filename content dev date =
      (Resp.err 400 "Only .json allowed".data, fs) ∧
    upload_sed_timeline (J := J) fs filename content dev date tb =
      (Resp.err 400 "Only .json files allowed".data, fs) ∧
    upload_sed_summary (J := J) fs filename content dev date =
      (Resp.err 400 "Only .json files allowed".data, fs) ∧
    upload_opensmile_features (J := J) fs filename content dev date tb =
      (Resp.err 400 "Only .json files allowed".data, fs) ∧
    upload_opensmile_summary (J := J) fs filename content dev date =
      (Resp.err 400 "Only .json files allowed".data, fs) := by
  refine ⟨?_, ?_, ?_, ?_, ?_, ?_⟩ <;>
    simp [upload_prompt, upload_emotion_timeline, upload_sed_timeline, upload_sed_summary,
      upload_opensmile_features, upload_opensmile_summary, h]

/-- Witness for C5 at the concrete filename `a.txt`. -/
theorem json_endpoints_reject_non_json_witness :
    endsWithL "a.txt".data jsonExt = false ∧
    upload_prompt (J := Nat) emptyFS "a.txt".data [] "d".data "t".data =
      (Resp.err 400 "Only .json allowed".data, emptyFS) :=
  ⟨by decide,
    (json_endpoints_reject_non_json Nat emptyFS "a.txt".data [] "d".data "t".data "s".data
      (by decide)).1⟩

/-- C9: each legacy `user_id`-keyed read endpoint resolves exactly the same
path and produces exactly the same response as the `device_id`-keyed endpoint
given the same identifier, date and slot — for the emotion-timeline,
sed-summary, opensmile-summary, opensmile-features and opensmile-listing
reads. -/
theorem legacy_endpoints_equivalent (J : Type) (parseJson : Bytes → Except PErr J) (fs : FS)
    (ident date slot : List Char) (dirExists : Bool) (entries : List (List Char))
    (summaryExists : Bool) :
    get_emotion_timeline_legacy parseJson fs ident date =
      get_emotion_timeline parseJson fs ident date ∧
    get_sed_summary_legacy parseJson fs ident date =
      get_sed_summary parseJson fs ident date ∧
    get_opensmile_features_legacy parseJson fs ident date slot =
      get_opensmile_features parseJson fs ident date slot ∧
    get_opensmile_summary_legacy parseJson fs ident date =
      get_opensmile_summary parseJson fs ident date ∧
    list_opensmile_features_legacy ident date dirExists entries summaryExists =
      list_opensmile_features ident date dirExists entries summaryExists :=
  ⟨rfl, rfl, rfl, rfl, rfl⟩

/-- C7: each analysis-fetch endpoint keyed by (device_id, date) or
(device_id, date, slot) answers 404 when the target file is missing — never
an empty success body — and 400, a distinct error, when the file exists but
its content fails JSON parsing. -/
theorem analysis_fetch_404_vs_400 (J : Type) (parseJson : Bytes → Except PErr J) (fs : FS)
    (dev date slot : List Char) :
    (fsGet fs (get_emotion_timeline parseJson fs dev date).1 = none →
      (get_emotion_timeline parseJson fs dev date).2 =
        Resp.err 404 "Emotion timeline file not found".data) ∧
    (∀ b, fsGet fs (get_emotion_timeline parseJson fs dev date).1 = some b →
      parseJson b = Except.error PErr.decode →
      (get_emotion_timeline parseJson fs dev date).2 =
        Resp.err 400 "Invalid JSON format in emotion-timeline.json".data) ∧
    (fsGet fs (get_sed_summary parseJson fs dev date).1 = none →
      (get_sed_summary parseJson fs dev date).2 =
        Resp.err 404 "SED summary file not found".data) ∧
    (∀ b, fsGet fs (get_sed_summary parseJson fs dev date).1 = some b →
      parseJson b = Except.error PErr.decode →
      (get_sed_summary parseJson fs dev date).2 =
        Resp.err 400 "Invalid JSON format in result.json".data) ∧
    (fsGet fs (get_opensmile_summary parseJson fs dev date).1 = none →
      (get_opensmile_summary parseJson fs dev date).2 =
        Resp.err 404 "OpenSMILE summary file not found".data) ∧
    (∀ b, fsGet fs (get_opensmile_summary parseJson fs dev date).1 = some b →
      parseJson b = Except.error PErr.decode →
      (get_opensmile_summary parseJson fs dev date).2 =
        Resp.err 400 "Invalid JSON format in result.json".data) ∧
    (fsGet fs (get_opensmile_features parseJson fs dev date slot).1 = none →
      (get_opensmile_features parseJson fs dev date slot).2 =
        Resp.err 404 ("OpenSMILE features file not found for slot ".data ++ slot)) ∧
    (∀ b, fsGet fs (get_opensmile_features parseJson fs dev date slot).1 = some b →
      parseJson b = Except.error PErr.decode →
      (get_opensmile_features parseJson fs dev date slot).2 =
        Resp.err 400 ("Invalid JSON format in ".data ++ slot ++ jsonExt)) := by
  refine ⟨?_, ?_, ?_, ?_, ?_, ?_, ?_, ?_⟩
  · intro h; simp only [get_emotion_timeline] at h ⊢; rw [h]
  · intro b hb hp; simp only [get_emotion_timeline] at hb ⊢; rw [hb]; simp [hp]
  · intro h; simp only [get_sed_summary] at h ⊢; rw [h]
  · intro b hb hp; simp only [get_sed_summary] at hb ⊢; rw [hb]; simp [hp]
  · intro h; simp only [get_opensmile_summary] at h ⊢; rw [h]
  · intro b hb hp; simp only [get_opensmile_summary] at hb ⊢; rw [hb]; simp [hp]
  · intro h; simp only [get_opensmile_features] at h ⊢; rw [h]
  · intro b hb hp; simp only [get_opensmile_features] at hb ⊢; rw [hb]; simp [hp]

/-- Witness for C7: missing files on the empty store give 404; present but
unparseable files give 400, at device `d`, date `t`, slot `s`. -/
theorem analysis_fetch_404_vs_400_witness :
    (get_emotion_timeline parseFailDecode emptyFS "d".data "t".data).2 =
      Resp.err 404 "Emotion timeline file not found".data ∧
    (get_emotion_timeline parseFailDecode fsAnalysis "d".data "t".data).2 =
      Resp.err 400 "Invalid JSON format in emotion-timeline.json".data ∧
    (get_sed_summary parseFailDecode emptyFS "d".data "t".data).2 =
      Resp.err 404 "SED summary file not found".data ∧
    (get_sed_summary parseFailDecode fsAnalysis "d".data "t".data).2 =
      Resp.err 400 "Invalid JSON format in result.json".data ∧
    (get_opensmile_summary parseFailDecode emptyFS "d".data "t".data).2 =
      Resp.err 404 "OpenSMILE summary file not found".data ∧
    (get_opensmile_summary parseFailDecode fsAnalysis "d".data "t".data).2 =
      Resp.err 400 "Invalid JSON format in result.json".data ∧
    (get_opensmile_features parseFailDecode emptyFS "d".data "t".data "s".data).2 =
      Resp.err 404 ("OpenSMILE features file not found for slot ".data ++ "s".data) ∧
    (get_opensmile_features parseFailDecode fsAnalysis "d".data "t".data "s".data).2 =
      Resp.err 400 ("Invalid JSON format in ".data ++ "s".data ++ jsonExt) :=
  ⟨(analysis_fetch_404_vs_400 Nat parseFailDecode emptyFS "d".data "t".data "s".data).1
      (by decide),
    (analysis_fetch_404_vs_400 Nat parseFailDecode fsAnalysis "d".data "t".data "s".data).2.1
      [0] (by decide) rfl,
    (analysis_fetch_404_vs_400 Nat parseFailDecode emptyFS "d".data "t".data "s".data).2.2.1
      (by decide),
    (analysis_fetch_404_vs_400 Nat parseFailDecode fsAnalysis "d".data "t".data "s".data).2.2.2.1
      [0] (by decide) rfl,
    (analysis_fetch_404_vs_400 Nat parseFailDecode emptyFS "d".data "t".data
      "s".data).2.2.2.2.1 (by decide),
    (analysis_fetch_404_vs_400 Nat parseFailDecode fsAnalysis "d".data "t".data
      "s".data).2.2.2.2.2.1 [0] (by decide) rfl,
    (analysis_fetch_404_vs_400 Nat parseFailDecode emptyFS "d".data "t".data
      "s".data).2.2.2.2.2.2.1 (by decide),
    (analysis_fetch_404_vs_400 Nat parseFailDecode fsAnalysis "d".data "t".data
      "s".data).2.2.2.2.2.2.2 [0] (by decide) rfl⟩

/-- C3 (amended): the audio-path validator accepts exactly the strings of
shape `device_id/YYYY-MM-DD/raw/HH-MM.wav` (device one-or-more of
`[a-zA-Z0-9_-]`, date and slot digit groups with no range check, digits
ASCII) together with those same strings followed by one trailing newline —
Python's `$` matches before a final newline; in particular it accepts
`dev1/2025-06-21/raw/08-00.wav` and a `99-99` slot, and rejects the
non-zero-padded `dev1/2025-6-21/raw/08-00.wav` and the dash-less
`dev1/2025-06-21/raw/0800.wav` with the 400 format error. -/
theorem audio_validator_characterisation :
    (∀ s : List Char, matchesAudioPath s = true ↔
      (audioShape s ∨ ∃ t, audioShape t ∧ s = t ++ ['\n'])) ∧
    matchesAudioPath "dev1/2025-06-21/raw/08-00.wav".data = true ∧
    matchesAudioPath "dev1/2025-06-21/raw/99-99.wav".data = true ∧
    matchesAudioPath "dev1/2025-6-21/raw/08-00.wav".data = false ∧
    matchesAudioPath "dev1/2025-06-21/raw/0800.wav".data = false ∧
    (upload_file (J := Nat) emptyFS (some "dev1/2025-6-21/raw/08-00.wav".data) []).1 =
      Resp.err 400 "Invalid file path format. Expected: device_id/YYYY-MM-DD/raw/HH-MM.wav".data ∧
    (upload_file (J := Nat) emptyFS (some "dev1/2025-06-21/raw/0800.wav".data) []).1 =
      Resp.err 400 "Invalid file path format. Expected: device_id/YYYY-MM-DD/raw/HH-MM.wav".data :=
  ⟨matchesAudioPath_iff, by decide, by decide, by decide, by decide, by decide, by decide⟩

/-- C3 counterexample: the validator does not accept *exactly* the stated
shape: `"dev1/2025-06-21/raw/08-00.wav\n"` (trailing newline) matches the
pattern — Python's `$` matches just before a final newline — and the upload
endpoint accepts and stores it, yet the string is not of the shape, whose
strings all end in `v`. -/
theorem audio_validator_newline_cex :
    matchesAudioPath "dev1/2025-06-21/raw/08-00.wav\n".data = true ∧
    ¬ audioShape "dev1/2025-06-21/raw/08-00.wav\n".data ∧
    (upload_file (J := Nat) emptyFS (some "dev1/2025-06-21/raw/08-00.wav\n".data) [42]).1 =
      Resp.uploadOk "/home/ubuntu/data/data_accounts/dev1/2025-06-21/raw/08-00.wav\n".data := by
  refine ⟨by decide, ?_, by decide⟩
  intro h
  have hv := audioShape_getLast h
  have hn : ("dev1/2025-06-21/raw/08-00.wav\n".data).getLast? = some '\n' := by decide
  rw [hn] at hv
  exact absurd hv (by decide)

/-- C2 (amended): the two generic path-by-string endpoints apply no path
validation at all: any client-supplied relative path — in particular one
whose split contains a `..` segment or a segment starting with `'/'` or
`'\'` — is joined to the base directory as-is, and when the joined string
names an existing file the download endpoint serves it rather than rejecting
it, as does the view endpoint whenever the name ends in `.json` and its
content parses. -/
theorem bypath_no_validation (J : Type) (parseJson : Bytes → Except PErr J) (fs : FS)
    (p : List Char) (b : Bytes) (doc : J)
    (_htrav : hasTraversalComponent p = true)
    (hget : fsGet fs (pjoin BASE_DIR p) = some b) :
    download_file_by_path (J := J) fs p =
      Resp.fileResp (pjoin BASE_DIR p) (mediaFor (basename (pjoin BASE_DIR p)))
        (basename (pjoin BASE_DIR p)) b ∧
    (endsWithL p jsonExt = true → parseJson b = Except.ok doc →
      view_file_content parseJson fs p = Resp.htmlView (pjoin BASE_DIR p) doc) := by
  constructor
  · simp only [download_file_by_path]
    rw [hget]
  · intro hj hp
    simp only [view_file_content]
    rw [hget, hj]
    simp [hp]

/-- Witness for C2's amended statement at the concrete traversal path
`../secret.json`. -/
theorem bypath_no_validation_witness :
    download_file_by_path (J := Nat) fsTraversal "../secret.json".data =
      Resp.fileResp (pjoin BASE_DIR "../secret.json".data)
        (mediaFor (basename (pjoin BASE_DIR "../secret.json".data)))
        (basename (pjoin BASE_DIR "../secret.json".data)) [42] ∧
    view_file_content parseOkZero fsTraversal "../secret.json".data =
      Resp.htmlView (pjoin BASE_DIR "../secret.json".data) 0 :=
  ⟨(bypath_no_validation Nat parseOkZero fsTraversal "../secret.json".data [42] 0
      (by decide) (by decide)).1,
    (bypath_no_validation Nat parseOkZero fsTraversal "../secret.json".data [42] 0
      (by decide) (by decide)).2 (by decide) rfl⟩

/-- C2 counterexample: the concrete request `file_path=../secret.json` — a
path with a `..` segment — is not rejected by either endpoint: the download
endpoint serves the file at the unvalidated join
`BASE_DIR/../secret.json`, and the view endpoint renders it. -/
theorem bypath_traversal_served_cex :
    hasTraversalComponent "../secret.json".data = true ∧
    download_file_by_path (J := Nat) fsTraversal "../secret.json".data =
      Resp.fileResp "/home/ubuntu/data/data_accounts/../secret.json".data "application/json"
        "secret.json".data [42] ∧
    view_file_content parseOkZero fsTraversal "../secret.json".data =
      Resp.htmlView "/home/ubuntu/data/data_accounts/../secret.json".data 0 :=
  ⟨by decide, by decide, by decide⟩

/-- C6 (amended): for every (device_id, date), the OpenSMILE slot-listing
endpoint returns available_slots that are a permutation — sorted ascending
lexicographically — of the `.json`-suffixed entries of the opensmile
directory with every occurrence of the substring `.json` removed (the code
uses `str.replace`, not extension-stripping), count equal to their number,
and has_summary exactly the existence of `opensmile-summary/result.json`; a
missing opensmile directory yields the empty listing. -/
theorem opensmile_listing_spec (dev date : List Char) (entries : List (List Char))
    (summaryExists : Bool) :
    ((list_opensmile_features dev date true entries summaryExists).available_slots).Perm
      ((entries.filter (fun e => endsWithL e jsonExt)).map replaceJson) ∧
    List.Sorted lexLe (list_opensmile_features dev date true entries summaryExists).available_slots ∧
    (list_opensmile_features dev date true entries summaryExists).count =
      (list_opensmile_features dev date true entries summaryExists).available_slots.length ∧
    (list_opensmile_features dev date true entries summaryExists).has_summary = summaryExists ∧
    list_opensmile_features dev date false entries summaryExists =
      ⟨[], 0, false, none⟩ := by
  refine ⟨?_, ?_, rfl, rfl, rfl⟩
  · exact List.perm_insertionSort lexLe _
  · exact List.sorted_insertionSort lexLe _

/-- C6 counterexample: a directory entry `x.json.json` is a `.json` child
whose extension-stripped name is `x.json`, but the endpoint lists the slot
as `x`: the code removes every occurrence of `.json`, so available_slots is
not the list of extension-stripped names. -/
theorem opensmile_listing_strip_cex :
    (list_opensmile_features "d".data "t".data true ["x.json.json".data] false).available_slots =
      ["x".data] ∧
    stripJsonExt "x.json.json".data = "x.json".data ∧
    "x".data ≠ "x.json".data :=
  ⟨by decide, by decide, by decide⟩

/-- C8 (amended): the tree listing's date sort returns a permutation of the
directory names ordered weakly descending by the parsed date key — names
parsing to equal dates keep their input order (the sort is stable), and an
unparseable name receives the minimal key `datetime.min`, hence every name
parsing to a later-than-minimal date comes before it; concretely
`2025-07-01` is placed before `2025-06-30` and an unparseable name last. -/
theorem sort_dates_spec (dates : List (List Char)) :
    (sort_dates dates).Perm dates ∧
    List.Sorted dateGe (sort_dates dates) ∧
    (∀ l1 a l2 b l3, sort_dates dates = l1 ++ a :: (l2 ++ b :: l3) →
      parsePyDate a = none → 10101 < dateKey b → False) ∧
    sort_dates ["2025-06-30".data, "2025-07-01".data, "garbage".data] =
      ["2025-07-01".data, "2025-06-30".data, "garbage".data] := by
  refine ⟨List.perm_insertionSort dateGe dates, List.sorted_insertionSort dateGe dates,
    ?_, by decide⟩
  intro l1 a l2 b l3 heq hnone hlt
  have hs : List.Sorted dateGe (l1 ++ a :: (l2 ++ b :: l3)) :=
    heq ▸ List.sorted_insertionSort dateGe dates
  have hsub : List.Sorted dateGe (a :: (l2 ++ b :: l3)) :=
    hs.sublist (List.sublist_append_right l1 _)
  have hab : dateGe a b := List.rel_of_sorted_cons hsub b (by simp)
  have ha : dateKey a = 10101 := by simp [dateKey, hnone]
  rw [dateGe, ha] at hab
  omega

/-- C8 counterexample: the order is not strictly descending by parsed date,
and an unparseable name is not always placed last. strptime accepts the
non-padded `2025-6-1`, which parses to the same date as the distinct name
`2025-06-01` and keeps its input position before it; and `garbage`
(unparseable) sorts before `0001-01-01`, which parses to `datetime.min` and
ties with it. -/
theorem sort_dates_cex :
    sort_dates ["2025-6-1".data, "2025-06-01".data] =
      ["2025-6-1".data, "2025-06-01".data] ∧
    parsePyDate "2025-6-1".data = some (2025, 6, 1) ∧
    parsePyDate "2025-06-01".data = some (2025, 6, 1) ∧
    "2025-6-1".data ≠ "2025-06-01".data ∧
    sort_dates ["garbage".data, "0001-01-01".data] =
      ["garbage".data, "0001-01-01".data] ∧
    parsePyDate "garbage".data = none ∧
    parsePyDate "0001-01-01".data = some (1, 1, 1) :=
  ⟨by decide, by decide, by decide, by decide, by decide, by decide, by decide⟩

/-- C4: for every valid (device_id, date, category, slot) key, uploading
bytes to the path resolved for the key and then downloading by the same key
returns exactly the written bytes, with the parent directory created and any
existing file shadowed. Shown for the three slotted categories with
dedicated download endpoints: raw (the validated `X-File-Path` upload and
`/download`), sed (`/upload/analysis/sed-timeline` and `/download-sed`) and
opensmile (`/upload/analysis/opensmile-features` and
`/download-opensmile`). -/
theorem upload_download_roundtrip (J : Type) (fs : FS) (content : Bytes)
    (dev date slot filename : List Char)
    (hdev : devOk dev) (hdate : dateShape date) (hslot : slotShape slot)
    (hfn : endsWithL filename jsonExt = true) :
    (upload_file (J := J) fs
        (some (dev ++ '/' :: (date ++ '/' :: (rawSeg ++ '/' :: (slot ++ wavExt)))))
        content).1 =
      Resp.uploadOk
        (BASE_DIR ++ '/' :: (dev ++ '/' :: (date ++ '/' :: (rawSeg ++ '/' :: (slot ++ wavExt))))) ∧
    download_file (J := J)
        (upload_file (J := J) fs
          (some (dev ++ '/' :: (date ++ '/' :: (rawSeg ++ '/' :: (slot ++ wavExt)))))
          content).2
        dev date slot =
      Resp.fileResp
        (BASE_DIR ++ '/' :: (dev ++ '/' :: (date ++ '/' :: (rawSeg ++ '/' :: (slot ++ wavExt)))))
        "audio/wav" (slot ++ wavExt) content ∧
    dirname
        (BASE_DIR ++ '/' :: (dev ++ '/' :: (date ++ '/' :: (rawSeg ++ '/' :: (slot ++ wavExt))))) ∈
      (upload_file (J := J) fs
        (some (dev ++ '/' :: (date ++ '/' :: (rawSeg ++ '/' :: (slot ++ wavExt)))))
        content).2.dirs ∧
    download_sed_file (J := J)
        (upload_sed_timeline (J := J) fs filename content dev date slot).2 dev date slot =
      Resp.fileResp
        (BASE_DIR ++ '/' :: (dev ++ '/' :: (date ++ '/' :: (sedSeg ++ '/' :: (slot ++ jsonExt)))))
        "application/json" (slot ++ jsonExt) content ∧
    download_opensmile_file (J := J)
        (upload_opensmile_features (J := J) fs filename content dev date slot).2 dev date slot =
      Resp.fileResp
        (BASE_DIR ++ '/' :: (dev ++ '/' :: (date ++ '/' :: (opensmileSeg ++ '/' :: (slot ++ jsonExt)))))
        "application/json" (slot ++ jsonExt) content := by
  have hshape : audioShape (dev ++ '/' :: (date ++ '/' :: (rawSeg ++ '/' :: (slot ++ wavExt)))) :=
    ⟨dev, date, slot, hdev, hdate, hslot, rfl⟩
  obtain ⟨hdne, hdh, hdl⟩ := devOk_facts hdev
  obtain ⟨htne, hth, htl⟩ := dateShape_facts hdate
  obtain ⟨hsne, hsh, hsl⟩ := slotShape_facts hslot
  have hm : matchesAudioPath
      (dev ++ '/' :: (date ++ '/' :: (rawSeg ++ '/' :: (slot ++ wavExt)))) = true := by
    simp [matchesAudioPath, matchesCore_of_audioShape hshape]
  have htrav := hasTraversalComponent_audioShape hshape
  have hempty : (dev ++ '/' :: (date ++ '/' :: (rawSeg ++ '/' :: (slot ++ wavExt)))).isEmpty =
      false := by
    cases dev with
    | nil => exact absurd rfl hdne
    | cons c0 r0 => rfl
  have hfph : (dev ++ '/' :: (date ++ '/' :: (rawSeg ++ '/' :: (slot ++ wavExt)))).head? ≠
      some '/' := by
    rw [List.head?_append_of_ne_nil dev hdne]
    exact hdh
  have hsave := pjoin_eq hfph (show (BASE_DIR : List Char) ≠ [] by decide)
    (show BASE_DIR.getLast? ≠ some '/' by decide)
  have hslh : (slot ++ jsonExt).head? ≠ some '/' := by
    rw [List.head?_append_of_ne_nil slot hsne]
    exact hsh
  refine ⟨?_, ?_, ?_, ?_, ?_⟩
  · simp [upload_file, hempty, hm, htrav, hsave]
  · simp [upload_file, hempty, hm, htrav, hsave, download_file, fsGet_fsWrite]
  · simp [upload_file, hempty, hm, htrav, hsave, fsWrite]
  · have hjoin := pjoin_chain dev date sedSeg (slot ++ jsonExt) hdne hdh hdl htne hth htl
      (by decide) (by decide) (by decide) hslh
    simp [upload_sed_timeline, hfn, download_sed_file, hjoin, fsGet_fsWrite]
  · have hjoin := pjoin_chain dev date opensmileSeg (slot ++ jsonExt) hdne hdh hdl htne hth
      htl (by decide) (by decide) (by decide) hslh
    simp [upload_opensmile_features, hfn, download_opensmile_file, hjoin, fsGet_fsWrite]

/-- Witness for C4 at device `dev1`, date `2025-06-21`, slot `08-00`,
content `[1, 2]`. -/
theorem upload_download_roundtrip_witness :
    download_file (J := Nat)
        (upload_file (J := Nat) emptyFS
          (some ("dev1".data ++ '/' :: ("2025-06-21".data ++ '/' :: (rawSeg ++ '/' :: ("08-00".data ++ wavExt)))))
          [1, 2]).2
        "dev1".data "2025-06-21".data "08-00".data =
      Resp.fileResp
        (BASE_DIR ++ '/' :: ("dev1".data ++ '/' :: ("2025-06-21".data ++ '/' :: (rawSeg ++ '/' :: ("08-00".data ++ wavExt)))))
        "audio/wav" ("08-00".data ++ wavExt) [1, 2] ∧
    download_sed_file (J := Nat)
        (upload_sed_timeline (J := Nat) emptyFS "r.json".data [1, 2] "dev1".data
          "2025-06-21".data "08-00".data).2
        "dev1".data "2025-06-21".data "08-00".data =
      Resp.fileResp
        (BASE_DIR ++ '/' :: ("dev1".data ++ '/' :: ("2025-06-21".data ++ '/' :: (sedSeg ++ '/' :: ("08-00".data ++ jsonExt)))))
        "application/json" ("08-00".data ++ jsonExt) [1, 2] :=
  ⟨(upload_download_roundtrip Nat emptyFS [1, 2] "dev1".data "2025-06-21".data "08-00".data
      "r.json".data ⟨by decide, by decide⟩
      ⟨'2', '0', '2', '5', '0', '6', '2', '1', by decide, rfl⟩
      ⟨'0', '8', '0', '0', by decide, rfl⟩ (by decide)).2.1,
    (upload_download_roundtrip Nat emptyFS [1, 2] "dev1".data "2025-06-21".data "08-00".data
      "r.json".data ⟨by decide, by decide⟩
      ⟨'2', '0', '2', '5', '0', '6', '2', '1', by decide, rfl⟩
      ⟨'0', '8', '0', '0', by decide, rfl⟩ (by decide)).2.2.2.1⟩

end Vault
